import Mathlib

/-!
Shallow embedding of the balances report `saldos.py`: the signed-amount
resolver (`sign_by_type`), the currency formatter (`brl`), fund-type
canonicalization, the row-preparation/cleanup step, the filter block, the
empty-result guard, and the workbook exporter (`to_excel_bytes`).

Conventions of the embedding:
  * pandas cells that may be NaN/NaT are `Option` values; `none` is NaN/NaT.
  * amounts are `ℚ` (the program's floats carry decimal currency values).
  * a pandas `Series` column operation becomes a per-row Lean function; a
    dataframe is a `List` of rows and boolean-mask filtering is `List.filter`.
  * Python string methods (`strip`, `upper`, `lower`, `str(x)`) are modelled
    by explicit executable functions below, over the alphabet this
    application uses (ASCII plus the accented Latin letters of its tokens).
-/

namespace Saldos

/-- Python `str(cell)` for a cell that may be NaN: `str(np.nan) = "nan"`,
otherwise the cell's own string. Used by `.astype(str)` on object columns. -/
def pyStrOfCell : Option String → String
  | none => "nan"
  | some s => s

/-- Python `str.strip()`: drop whitespace from both ends. -/
def pyStrip (s : String) : String :=
  ⟨((s.data.dropWhile Char.isWhitespace).reverse.dropWhile Char.isWhitespace).reverse⟩

/-- Python `str.upper()` on one character, for the letters this program's
token vocabulary can contain (ASCII letters plus accented Latin vowels and
the cedilla). -/
def pyUpperChar (c : Char) : Char :=
  if 'a' ≤ c ∧ c ≤ 'z' then Char.ofNat (c.toNat - 32)
  else if c = 'ã' then 'Ã' else if c = 'á' then 'Á' else if c = 'à' then 'À'
  else if c = 'â' then 'Â' else if c = 'ç' then 'Ç' else if c = 'é' then 'É'
  else if c = 'ê' then 'Ê' else if c = 'í' then 'Í' else if c = 'ó' then 'Ó'
  else if c = 'ô' then 'Ô' else if c = 'õ' then 'Õ' else if c = 'ú' then 'Ú'
  else c

/-- Python `str.lower()` on one character, same alphabet as `pyUpperChar`. -/
def pyLowerChar (c : Char) : Char :=
  if 'A' ≤ c ∧ c ≤ 'Z' then Char.ofNat (c.toNat + 32)
  else if c = 'Ã' then 'ã' else if c = 'Á' then 'á' else if c = 'À' then 'à'
  else if c = 'Â' then 'â' else if c = 'Ç' then 'ç' else if c = 'É' then 'é'
  else if c = 'Ê' then 'ê' else if c = 'Í' then 'í' else if c = 'Ó' then 'ó'
  else if c = 'Ô' then 'ô' else if c = 'Õ' then 'õ' else if c = 'Ú' then 'ú'
  else c

/-- Python `str.upper()`. -/
def pyUpper (s : String) : String := ⟨s.data.map pyUpperChar⟩

/-- Python `str.lower()`. -/
def pyLower (s : String) : String := ⟨s.data.map pyLowerChar⟩

/-! ## Signed-amount resolver (`sign_by_type`, saldos.py lines 24-37) -/

/-- The token-set construction of `sign_by_type`:
`{s.strip().upper() for s in tokens if s.strip()}` — empty tokens discarded,
each kept token stripped and upper-cased.  Membership in the Python `set` is
modelled by `∈` on the list. -/
def tokenSet (tokens : List String) : List String :=
  (tokens.filter (fun s => pyStrip s ≠ "")).map (fun s => pyUpper (pyStrip s))

/-- The per-row normalization of the type column in `sign_by_type`:
`df[type_col].astype(str).str.strip().str.upper()`. -/
def normType (cell : Option String) : String := pyUpper (pyStrip (pyStrOfCell cell))

/-- Per-row semantics of `sign_by_type` (saldos.py lines 24-37).
`val` is the row's entry of `pd.to_numeric(df[amount_col], errors="coerce")`
(`none` = the raw amount failed numeric parsing, i.e. NaN).  When
`hasType = false` (`type_col is None`) the parsed value is returned as is.
Otherwise the source performs two sequential masked assignments on a copy of
`vals`: first `signed[is_credit] = vals[is_credit].abs()`, then
`signed[is_debit] = -vals[is_debit].abs()`; the two `let signed` steps below
mirror them in order, so the debit assignment overwrites the credit one on
rows whose token lies in both sets.  `abs` of NaN is NaN (`Option.map`). -/
def sign_by_type (hasType : Bool) (credit_tokens debit_tokens : List String)
    (val : Option ℚ) (typeCell : Option String) : Option ℚ :=
  if hasType = false then val
  else
    let t := normType typeCell
    let credit_set := tokenSet credit_tokens
    let debit_set := tokenSet debit_tokens
    let is_credit := t ∈ credit_set
    let is_debit := t ∈ debit_set
    let signed := if is_credit then val.map (fun v => |v|) else val
    let signed := if is_debit then val.map (fun v => -|v|) else signed
    signed

/-! ## Fund-type canonicalization (saldos.py lines 133-139) -/

/-- The literal dictionary of
`df[col_tipo_recurso].astype(str).str.strip().str.lower().map({...})`. -/
def fundTable : List (String × String) :=
  [("livre", "Livre"), ("vinculado", "Vinculado"), ("vinculada", "Vinculado"),
   ("nao livre", "Vinculado"), ("não livre", "Vinculado"),
   ("nao-vinculado", "Livre"), ("não-vinculado", "Livre")]

/-- Per-row `_fundtype` construction for a present fund-type column:
strip, lower, `.map` through `fundTable` (NaN for a missing key), then
`.fillna` with the stripped (not lowered) original text. -/
def canonFund (cell : Option String) : String :=
  let s := pyStrip (pyStrOfCell cell)
  match fundTable.lookup (pyLower s) with
  | some v => v
  | none => s

/-- `_fundtype` including the absent-column branch
(`df["_fundtype"] = "Não informado"`). -/
def fundtypeOf (hasTipoRecurso : Bool) (cell : Option String) : String :=
  if hasTipoRecurso then canonFund cell else "Não informado"

/-! ## Row preparation and cleanup (saldos.py lines 112-143) -/

/-- A pandas timestamp at day granularity plus a time-of-day remainder:
`.dt.date` projects onto the first component. -/
abbrev Stamp := Int × Nat

/-- One row of the uploaded sheet, restricted to the mapped columns.  Cells
are `none` when the source cell is NaN.  `amountCell` is the row's entry of
`pd.to_numeric(df[col_valor], errors="coerce")` (`none` = unparsable), and
`dateCell` the entry of `parse_dates(df[col_data])` (`none` = NaT). -/
structure RawRow where
  deptCell : Option String
  acctCell : Option String
  fundCell : Option String
  typeCell : Option String
  amountCell : Option ℚ
  dateCell : Option Stamp

/-- The sidebar column mapping and C/D token inputs. -/
structure Config where
  hasDate : Bool
  hasConta : Bool
  hasTipoRecurso : Bool
  hasType : Bool
  credit_tokens : List String
  debit_tokens : List String

/-- One prepared row: the derived `_date`, `_amount`, `_dept`, `_account`,
`_fundtype` columns of the PREPARO section. -/
structure Row where
  date : Option Stamp
  amount : Option ℚ
  dept : String
  account : String
  fundtype : String
deriving DecidableEq

/-- The PREPARO section (saldos.py lines 112-139) on one row:
`_date` (NaT when no date column), `_amount = sign_by_type ...`,
`_dept = df[col_secretaria].astype(str).str.strip()`,
`_account` (or the literal `"Sem conta"`), `_fundtype`. -/
def mkRow (cfg : Config) (r : RawRow) : Row where
  date := if cfg.hasDate then r.dateCell else none
  amount := sign_by_type cfg.hasType cfg.credit_tokens cfg.debit_tokens
      r.amountCell r.typeCell
  dept := pyStrip (pyStrOfCell r.deptCell)
  account := if cfg.hasConta then pyStrip (pyStrOfCell r.acctCell) else "Sem conta"
  fundtype := fundtypeOf cfg.hasTipoRecurso r.fundCell

/-- The LIMPEZA step (saldos.py lines 142-143):
`df = df[~df["_dept"].isna() & df["_dept"].ne("")]` — after `.astype(str)`
the `_dept` column is never NaN, so `~isna` is constantly true and only the
`ne("")` conjunct filters — then `df = df[~df["_amount"].isna()]`. -/
def cleanup (rows : List Row) : List Row :=
  (rows.filter (fun r => r.dept ≠ "")).filter (fun r => r.amount.isSome)

/-! ## Filter block (saldos.py lines 163-176) -/

/-- One `if sel: df_f = df_f[df_f[key].isin(sel)]` step: a Python empty list
is falsy, so an empty selection leaves the frame untouched. -/
def applySel (sel : List String) (key : Row → String) (rows : List Row) : List Row :=
  if sel.isEmpty then rows else rows.filter (fun r => key r ∈ sel)

/-- The date mask of line 171:
`(df_f["_date"].dt.date >= d_ini) & (df_f["_date"].dt.date <= d_fim)` —
day-granularity comparison; NaT compares false on both sides. -/
def dateMask (d_ini d_fim : Int) (d : Option Stamp) : Bool :=
  match d with
  | none => false
  | some t => decide (d_ini ≤ t.1 ∧ t.1 ≤ d_fim)

/-- `df_f = df_f[mask]` for the date range. -/
def dateFilter (d_ini d_fim : Int) (rows : List Row) : List Row :=
  rows.filter (fun r => dateMask d_ini d_fim r.date)

/-- The whole `df_f` filter block (saldos.py lines 163-172).  `dateRange` is
`some (d_ini, d_fim)` exactly when `has_date and d_ini and d_fim` holds. -/
def applyFilters (sel_depts sel_accts sel_funds : List String)
    (dateRange : Option (Int × Int)) (rows : List Row) : List Row :=
  let df1 := applySel sel_depts Row.dept rows
  let df2 := applySel sel_accts Row.account df1
  let df3 := applySel sel_funds Row.fundtype df2
  match dateRange with
  | none => df3
  | some (d_ini, d_fim) => dateFilter d_ini d_fim df3

/-! ## Empty guard and aggregation (saldos.py lines 174-176 and 196) -/

/-- Group-by-and-sum of `_amount` over a key, as in
`df_f.groupby(key, as_index=False)["_amount"].sum()`; key order and the
presentational descending sort are irrelevant to the claims and omitted. -/
def groupSum (key : Row → String) (rows : List Row) : List (String × ℚ) :=
  ((rows.map key).dedup).map
    (fun k => (k, ((rows.filter (fun r => key r = k)).map (fun r => r.amount.getD 0)).sum))

/-- `by_dept`: the first aggregate built after the guard (line 196). -/
def by_dept (rows : List Row) : List (String × ℚ) := groupSum Row.dept rows

/-- Outcome of the script after the filter block: either `st.warning` +
`st.stop` or the rendered aggregates. -/
inductive PipelineResult (α : Type)
  | halted (msg : String)
  | ok (a : α)
deriving DecidableEq

/-- Lines 174-176 followed by aggregation: if the filtered frame is empty the
script warns and stops; otherwise it proceeds to `by_dept` (and the rest). -/
def runAfterFilters (sel_depts sel_accts sel_funds : List String)
    (dateRange : Option (Int × Int)) (rows : List Row) :
    PipelineResult (List (String × ℚ)) :=
  let df_f := applyFilters sel_depts sel_accts sel_funds dateRange rows
  if df_f.isEmpty then .halted "Nenhum dado após aplicar os filtros."
  else .ok (by_dept df_f)

/-! ## Currency formatter `brl` (saldos.py lines 15-19)

`f"R$ {float(x):,.2f}"` formats the value with `,` as thousands separator
and `.` as decimal point, two decimal places (round-half-even), then the
chain `.replace(",", "X").replace(".", ",").replace("X", ".")` swaps the two
separators.  Values are modelled as exact rationals. -/

/-- Round to the nearest integer, ties to the even integer (the rounding of
Python's fixed-point float formatting). -/
def roundHalfEven (x : ℚ) : Int :=
  let f := ⌊x⌋
  if x - f < 1 / 2 then f
  else if 1 / 2 < x - f then f + 1
  else if f % 2 = 0 then f else f + 1

/-- Decimal digit characters of `n`, most significant first; `fuel`-driven so
that it reduces structurally (`fuel = n` suffices). -/
def natCharsAux : Nat → Nat → List Char
  | 0, _ => []
  | fuel + 1, n =>
    if n = 0 then [] else natCharsAux fuel (n / 10) ++ [Nat.digitChar (n % 10)]

/-- Decimal digit characters of `n`, most significant first, `"0"` for 0. -/
def natChars (n : Nat) : List Char := if n = 0 then ['0'] else natCharsAux n n

/-- Insert `sep` after every third character of a little-endian digit list:
`k` counts the characters still due before the next separator. -/
def g3 (sep : Char) : Nat → List Char → List Char
  | _, [] => []
  | 0, c :: cs => sep :: c :: g3 sep 2 cs
  | k + 1, c :: cs => c :: g3 sep k cs

/-- Group a most-significant-first digit list in threes from the right,
separated by `sep`. -/
def group3With (sep : Char) (ds : List Char) : List Char :=
  (g3 sep 3 ds.reverse).reverse

/-- The two fixed decimal places of `{:,.2f}` for the cent remainder. -/
def twoDec (n : Nat) : List Char :=
  [Nat.digitChar (n / 10 % 10), Nat.digitChar (n % 10)]

/-- Render a signed number of cents: sign, thousands-grouped integer part
with `,`, decimal point `.`, two cent digits. -/
def centsFormat (c : Int) : List Char :=
  (if c < 0 then ['-'] else []) ++
    group3With ',' (natChars (c.natAbs / 100)) ++ '.' :: twoDec (c.natAbs % 100)

/-- `f"{v:,.2f}"`: round the value to whole cents, then render. -/
def usFormat (q : ℚ) : List Char := centsFormat (roundHalfEven (q * 100))

/-- One character of a single-character `str.replace`. -/
def replCh (a b c : Char) : Char := if c = a then b else c

/-- Python `str.replace` for one-character patterns is a character map. -/
def replaceChar (a b : Char) (cs : List Char) : List Char := cs.map (replCh a b)

/-- The net effect of the `brl` replace chain on characters other than `X`:
swap the two separators. -/
def swapSep (c : Char) : Char :=
  if c = ',' then '.' else if c = '.' then ',' else c

/-- The ten decimal digit characters. -/
def digits10 : List Char := ['0', '1', '2', '3', '4', '5', '6', '7', '8', '9']

/-- The argument of `brl`: either a value `float()` accepts (carried as its
numeric value) or one it raises on (carried as its `str(x)` form). -/
inductive PyVal
  | num (q : ℚ)
  | nonNum (s : String)

/-- `brl` (saldos.py lines 15-19): format-and-swap on numeric input, the
`str(x)` fallback on input `float()` rejects. -/
def brl : PyVal → String
  | .num q =>
    ⟨replaceChar 'X' '.' (replaceChar '.' ',' (replaceChar ',' 'X'
      ("R$ ".data ++ usFormat q)))⟩
  | .nonNum s => s

/-- Modelled from the spec (§4.6 contract): a signed number of cents rendered
directly with `.` as thousands separator and `,` as decimal separator. -/
def specCents (c : Int) : List Char :=
  (if c < 0 then ['-'] else []) ++
    group3With '.' (natChars (c.natAbs / 100)) ++ ',' :: twoDec (c.natAbs % 100)

/-- Modelled from the spec (§4.6 contract), for comparison with `brl`: the
number rendered with `.` as thousands separator, `,` as decimal separator
and exactly two decimal places. -/
def formatBR_spec (q : ℚ) : String := ⟨specCents (roundHalfEven (q * 100))⟩

/-! ## Workbook exporter `to_excel_bytes` (saldos.py lines 39-48) -/

/-- `df[col].astype(str).map(len).max()` over one column's cells. -/
def maxCellLen (cells : List String) : Nat :=
  (cells.map String.length).foldr max 0

/-- The width set for one column:
`min(max(12, df[col].astype(str).map(len).max() if not df.empty else 12) + 2, 50)`. -/
def colWidth (cells : List String) : Nat :=
  min (max 12 (if cells.isEmpty then 12 else maxCellLen cells) + 2) 50

/-- A dataframe as the exporter sees it: per column, the stringified cells
(one entry per row; `df.empty` iff the cell lists are empty). -/
structure XTable where
  cols : List (List String)
deriving DecidableEq

/-- One written worksheet: its name, its table and the per-column widths. -/
structure XSheet where
  sheetName : String
  table : XTable
  widths : List Nat
deriving DecidableEq

/-- `to_excel_bytes`: one sheet per mapping entry, written under
`name[:31]`, with `ws.set_column(i, i, width)` for every column `i`. -/
def to_excel_bytes (sheets : List (String × XTable)) : List XSheet :=
  sheets.map (fun p => ⟨⟨p.1.data.take 31⟩, p.2, p.2.cols.map colWidth⟩)

/-! ## Evaluation checks

Concrete evaluations of the embedded functions on small inputs, matching
hand-traces of the Python. -/

example : sign_by_type true ["C"] ["D"] (some 5) (some "c ") = some 5 := by decide
example : sign_by_type true ["C"] ["D"] (some (-5)) (some "C") = some 5 := by decide
example : sign_by_type true ["C"] ["D"] (some 5) (some "D") = some (-5) := by decide
example : sign_by_type true ["C"] ["C"] (some 5) (some "C") = some (-5) := by decide
example : sign_by_type true ["C"] ["D"] (some 5) (some "X") = some 5 := by decide
example : sign_by_type false ["C"] ["D"] (some (-7)) (some "C") = some (-7) := by decide
example : sign_by_type true ["C"] ["D"] none (some "C") = none := by decide

example : canonFund (some " LIVRE ") = "Livre" := by decide
example : canonFund (some "Vinculada") = "Vinculado" := by decide
example : canonFund (some "não-vinculado") = "Livre" := by decide
example : canonFund (some " outra coisa ") = "outra coisa" := by decide
example : canonFund none = "nan" := by decide
example : fundtypeOf false (some "livre") = "Não informado" := by decide

example : colWidth [] = 14 := by decide
example : colWidth ["ab"] = 14 := by decide
example : colWidth [String.mk (List.replicate 60 'a')] = 50 := by decide

example : centsFormat 123456789 = ("1,234,567.89").data := by decide
example : centsFormat (-100000) = ("-1,000.00").data := by decide
example : centsFormat 0 = ("0.00").data := by decide

/-- Rounding a value that is already a whole number of cents is exact. -/
theorem roundHalfEven_intCast (n : Int) : roundHalfEven ((n : ℚ)) = n := by
  unfold roundHalfEven
  rw [Int.floor_intCast]
  norm_num

/-! ## Formatter lemmas -/

/-- Digit characters come from `digits10`. -/
theorem digitChar_mem_digits10 : ∀ d < 10, Nat.digitChar d ∈ digits10 := by decide

/-- `swapSep` fixes every digit character. -/
theorem swapSep_digit (c : Char) (h : c ∈ digits10) : swapSep c = c := by
  simp only [digits10, List.mem_cons, List.not_mem_nil, or_false] at h
  rcases h with rfl | rfl | rfl | rfl | rfl | rfl | rfl | rfl | rfl | rfl <;> decide

/-- No digit character is `X`. -/
theorem digit_ne_X (c : Char) (h : c ∈ digits10) : c ≠ 'X' := by
  simp only [digits10, List.mem_cons, List.not_mem_nil, or_false] at h
  rcases h with rfl | rfl | rfl | rfl | rfl | rfl | rfl | rfl | rfl | rfl <;> decide

/-- Every character `natCharsAux` emits is a digit. -/
theorem natCharsAux_subset (fuel : Nat) :
    ∀ n, ∀ c ∈ natCharsAux fuel n, c ∈ digits10 := by
  induction fuel with
  | zero => intro n c hc; simp [natCharsAux] at hc
  | succ f ih =>
    intro n c hc
    by_cases h : n = 0
    · simp [natCharsAux, h] at hc
    · simp only [natCharsAux, h, if_false, List.mem_append, List.mem_singleton] at hc
      rcases hc with hc | rfl
      · exact ih _ c hc
      · exact digitChar_mem_digits10 _ (Nat.mod_lt _ (by norm_num))

/-- Every character of `natChars n` is a digit. -/
theorem natChars_subset (n : Nat) : ∀ c ∈ natChars n, c ∈ digits10 := by
  intro c hc
  by_cases h : n = 0
  · simp [natChars, h] at hc; subst hc; decide
  · simp only [natChars, h, if_false] at hc
    exact natCharsAux_subset n n c hc

/-- Characters of a grouped list are the separator or come from the list. -/
theorem g3_subset (sep : Char) :
    ∀ (cs : List Char) (k : Nat), ∀ c ∈ g3 sep k cs, c = sep ∨ c ∈ cs := by
  intro cs
  induction cs with
  | nil => intro k c hc; simp [g3] at hc
  | cons a as ih =>
    intro k c hc
    cases k with
    | zero =>
      simp only [g3, List.mem_cons] at hc
      rcases hc with rfl | rfl | hc
      · exact Or.inl rfl
      · exact Or.inr (List.mem_cons_self _ _)
      · rcases ih 2 c hc with h | h
        · exact Or.inl h
        · exact Or.inr (List.mem_cons_of_mem _ h)
    | succ k =>
      simp only [g3, List.mem_cons] at hc
      rcases hc with rfl | hc
      · exact Or.inr (List.mem_cons_self _ _)
      · rcases ih k c hc with h | h
        · exact Or.inl h
        · exact Or.inr (List.mem_cons_of_mem _ h)

/-- Mapping `swapSep` over a `,`-grouped list regroups with `.`. -/
theorem g3_map_swapSep :
    ∀ (cs : List Char) (k : Nat),
      (g3 ',' k cs).map swapSep = g3 '.' k (cs.map swapSep) := by
  intro cs
  induction cs with
  | nil => intro k; simp [g3]
  | cons a as ih =>
    intro k
    cases k with
    | zero => simp only [g3, List.map_cons, ih]; rfl
    | succ k => simp only [g3, List.map_cons, ih]

/-- Mapping `swapSep` over a digit list is the identity. -/
theorem map_swapSep_digits (cs : List Char) (h : ∀ c ∈ cs, c ∈ digits10) :
    cs.map swapSep = cs := by
  rw [List.map_congr_left (fun c hc => swapSep_digit c (h c hc))]
  exact List.map_id cs

/-- The replace chain of `brl` equals `swapSep` on `X`-free input. -/
theorem chain_char (c : Char) (h : c ≠ 'X') :
    replCh 'X' '.' (replCh '.' ',' (replCh ',' 'X' c)) = swapSep c := by
  by_cases h1 : c = ','
  · subst h1; decide
  · by_cases h2 : c = '.'
    · subst h2; decide
    · simp [replCh, swapSep, h1, h2, h]

/-- The replace chain of `brl` on a whole `X`-free character list. -/
theorem chain_list (cs : List Char) (h : ∀ c ∈ cs, c ≠ 'X') :
    replaceChar 'X' '.' (replaceChar '.' ',' (replaceChar ',' 'X' cs)) =
      cs.map swapSep := by
  simp only [replaceChar, List.map_map]
  exact List.map_congr_left fun c hc => chain_char c (h c hc)

/-- Both characters of `twoDec` are digits. -/
theorem twoDec_subset (n : Nat) : ∀ c ∈ twoDec n, c ∈ digits10 := by
  intro c hc
  simp only [twoDec, List.mem_cons, List.not_mem_nil, or_false] at hc
  rcases hc with rfl | rfl
  · exact digitChar_mem_digits10 _ (Nat.mod_lt _ (by norm_num))
  · exact digitChar_mem_digits10 _ (Nat.mod_lt _ (by norm_num))

/-- `swapSep` turns a `,`-grouped digit list into the `.`-grouped one. -/
theorem group3With_map_swapSep (ds : List Char) (h : ∀ c ∈ ds, c ∈ digits10) :
    (group3With ',' ds).map swapSep = group3With '.' ds := by
  unfold group3With
  rw [List.map_reverse, g3_map_swapSep, List.map_reverse, map_swapSep_digits ds h]

/-- `swapSep` over the `{:,.2f}` rendering gives the spec-side rendering. -/
theorem centsFormat_map_swapSep (c : Int) :
    (centsFormat c).map swapSep = specCents c := by
  unfold centsFormat specCents
  rw [List.map_append, List.map_append, List.map_cons]
  rw [group3With_map_swapSep _ (natChars_subset _)]
  rw [map_swapSep_digits _ (twoDec_subset _)]
  rw [show swapSep '.' = ',' from by decide]
  congr 1
  by_cases h : c < 0 <;> simp [h, swapSep]

/-- The `{:,.2f}` rendering never contains `X`. -/
theorem centsFormat_no_X (c : Int) : ∀ ch ∈ centsFormat c, ch ≠ 'X' := by
  intro ch hch
  unfold centsFormat at hch
  simp only [List.mem_append, List.mem_cons] at hch
  rcases hch with (h | h) | h | h
  · by_cases hc : c < 0
    · simp only [hc, if_true, List.mem_singleton] at h
      subst h; decide
    · simp [hc] at h
  · unfold group3With at h
    rcases g3_subset ',' _ 3 ch (List.mem_reverse.mp h) with rfl | h'
    · decide
    · exact digit_ne_X ch (natChars_subset _ ch (List.mem_reverse.mp h'))
  · subst h; decide
  · exact digit_ne_X ch (twoDec_subset _ ch h)

/-- `brl` on a numeric value is the `R$ ` prefix plus the spec-side
rendering: the replace chain exactly swaps the two separators. -/
theorem brl_num_eq (q : ℚ) : brl (.num q) = "R$ " ++ formatBR_spec q := by
  have hRS : "R$ ".data = ['R', '$', ' '] := by decide
  have hX : ∀ ch ∈ "R$ ".data ++ usFormat q, ch ≠ 'X' := by
    intro ch hch
    rcases List.mem_append.mp hch with h | h
    · rw [hRS] at h
      fin_cases h <;> decide
    · exact centsFormat_no_X _ ch h
  apply String.ext
  show replaceChar 'X' '.' (replaceChar '.' ',' (replaceChar ',' 'X'
      ("R$ ".data ++ usFormat q))) = _
  rw [String.data_append, chain_list _ hX, List.map_append]
  congr 1
  exact centsFormat_map_swapSep _

/-! ## Pipeline lemmas -/

/-- Membership in the cleaned frame: the row was there, its `_dept` is
non-empty and its `_amount` is not NaN. -/
theorem cleanup_mem (rows : List Row) (r : Row) :
    r ∈ cleanup rows ↔ r ∈ rows ∧ r.dept ≠ "" ∧ r.amount.isSome := by
  constructor
  · intro hr
    have h2 := List.mem_filter.mp hr
    have h1 := List.mem_filter.mp h2.1
    exact ⟨h1.1, by simpa using h1.2, by simpa using h2.2⟩
  · rintro ⟨h1, h2, h3⟩
    exact List.mem_filter.mpr ⟨List.mem_filter.mpr ⟨h1, by simpa⟩, by simpa⟩

/-- `sign_by_type` never turns an unparsable amount into a number. -/
theorem sign_by_type_none (ht : Bool) (ct dt : List String) (tc : Option String) :
    sign_by_type ht ct dt none tc = none := by
  simp only [sign_by_type]
  split_ifs <;> simp

/-- A selection step only ever removes rows. -/
theorem applySel_subset (sel : List String) (key : Row → String) (rows : List Row) :
    ∀ r ∈ applySel sel key rows, r ∈ rows := by
  intro r hr
  by_cases h : sel.isEmpty <;> simp [applySel, h] at hr
  · exact hr
  · exact hr.1

/-- Every key of a group-by-sum is the key of some grouped row. -/
theorem groupSum_keys (key : Row → String) (rows : List Row) :
    ∀ kv ∈ groupSum key rows, ∃ r ∈ rows, key r = kv.1 := by
  intro kv hkv
  rcases List.mem_map.mp hkv with ⟨k, hk, rfl⟩
  rcases List.mem_map.mp (List.mem_dedup.mp hk) with ⟨r, hr, rfl⟩
  exact ⟨r, hr, rfl⟩

/-- The whole filter block only ever removes rows. -/
theorem applyFilters_subset (sd sa sf : List String) (dr : Option (Int × Int))
    (rows : List Row) : ∀ r ∈ applyFilters sd sa sf dr rows, r ∈ rows := by
  intro r hr
  have step : ∀ x ∈ applySel sf Row.fundtype
      (applySel sa Row.account (applySel sd Row.dept rows)), x ∈ rows := fun x hx =>
    applySel_subset _ _ _ x (applySel_subset _ _ _ x (applySel_subset _ _ _ x hx))
  unfold applyFilters at hr
  rcases dr with _ | ⟨d1, d2⟩
  · exact step r hr
  · exact step r (List.mem_filter.mp hr).1

/-! ## Claims -/

/-- C1, counterexample: with `credit_tokens = debit_tokens = ["C"]` and a
row typed `"C"` with amount `5`, `sign_by_type` yields `-5`, not
`+abs(5) = 5` as the claim states: the debit masked assignment runs after
the credit one and overwrites it. -/
theorem sign_by_type_overlap_cex :
    sign_by_type true ["C"] ["C"] (some 5) (some "C") = some (-5) ∧
    sign_by_type true ["C"] ["C"] (some 5) (some "C") ≠ some |(5 : ℚ)| := by
  decide

/-- C1, amended: for every row whose normalized transaction-type token is a
member of both token sets, `sign_by_type` assigns
`signed_amount = -abs(raw_amount)`: the debit rule wins, because the debit
masked assignment is applied after the credit one and overwrites it. -/
theorem sign_by_type_overlap_debit_wins (ct dt : List String) (val : Option ℚ)
    (tc : Option String) (v : ℚ)
    (_hc : normType tc ∈ tokenSet ct) (hd : normType tc ∈ tokenSet dt)
    (hv : val = some v) :
    sign_by_type true ct dt val tc = some (-|v|) := by
  subst hv
  simp [sign_by_type, hd]

/-- C1 witness: the amended rule at the counterexample input. -/
theorem sign_by_type_overlap_debit_wins_witness :
    sign_by_type true ["C"] ["C"] (some 5) (some "C") = some (-|(5 : ℚ)|) :=
  sign_by_type_overlap_debit_wins ["C"] ["C"] (some 5) (some "C") 5
    (by decide) (by decide) rfl

/-- C2: `sign_by_type` resolves by cases: no type column configured — the
parsed amount unchanged; token in the credit set only — `+abs`; token in
the debit set only — `-abs`; token in neither — unchanged pass-through. -/
theorem sign_by_type_cases (ct dt : List String) (val : Option ℚ)
    (tc : Option String) (v : ℚ) :
    sign_by_type false ct dt val tc = val ∧
    (normType tc ∈ tokenSet ct → normType tc ∉ tokenSet dt → val = some v →
      sign_by_type true ct dt val tc = some |v|) ∧
    (normType tc ∉ tokenSet ct → normType tc ∈ tokenSet dt → val = some v →
      sign_by_type true ct dt val tc = some (-|v|)) ∧
    (normType tc ∉ tokenSet ct → normType tc ∉ tokenSet dt →
      sign_by_type true ct dt val tc = val) := by
  refine ⟨rfl, ?_, ?_, ?_⟩
  · intro h1 h2 h3; subst h3; simp [sign_by_type, h1, h2]
  · intro h1 h2 h3; subst h3; simp [sign_by_type, h1, h2]
  · intro h1 h2; simp [sign_by_type, h1, h2]

/-- C2 witness: all four cases at concrete inputs. -/
theorem sign_by_type_cases_witness :
    sign_by_type false ["C"] ["D"] (some 7) (some "C") = some 7 ∧
    sign_by_type true ["C"] ["D"] (some (-7)) (some " c ") = some |(-7 : ℚ)| ∧
    sign_by_type true ["C"] ["D"] (some 7) (some "d") = some (-|(7 : ℚ)|) ∧
    sign_by_type true ["C"] ["D"] (some 7) (some "x") = some 7 :=
  ⟨(sign_by_type_cases ["C"] ["D"] (some 7) (some "C") 7).1,
   (sign_by_type_cases ["C"] ["D"] (some (-7)) (some " c ") (-7)).2.1
     (by decide) (by decide) rfl,
   (sign_by_type_cases ["C"] ["D"] (some 7) (some "d") 7).2.2.1
     (by decide) (by decide) rfl,
   (sign_by_type_cases ["C"] ["D"] (some 7) (some "x") 7).2.2.2
     (by decide) (by decide)⟩

/-- C3: an empty selection imposes no restriction — one empty selection
step passes every row through, and with all three selections empty (and no
date range active) the filter block returns the input unchanged. -/
theorem empty_selection_no_restriction (key : Row → String) (rows : List Row) :
    applySel [] key rows = rows ∧ applyFilters [] [] [] none rows = rows :=
  ⟨rfl, rfl⟩

/-- C4: the date filter keeps exactly the rows whose day component lies in
`[d_ini, d_fim]` inclusively, comparing at day granularity (the time-of-day
component is ignored), and a row with a null date is always excluded. -/
theorem date_filter_inclusive (d1 d2 : Int) (rows : List Row) (r : Row) :
    (r ∈ dateFilter d1 d2 rows ↔
      r ∈ rows ∧ ∃ day sod, r.date = some (day, sod) ∧ d1 ≤ day ∧ day ≤ d2) ∧
    (r.date = none → r ∉ dateFilter d1 d2 rows) := by
  constructor
  · rcases hd : r.date with _ | ⟨day, sod⟩
    · simp [dateFilter, List.mem_filter, dateMask, hd]
    · simp [dateFilter, List.mem_filter, dateMask, hd]
  · intro h
    simp [dateFilter, List.mem_filter, dateMask, h]

/-- C4 witness: a row dated on the range's first day (any time of day) is
kept; a row with a null date is dropped. -/
theorem date_filter_inclusive_witness :
    (⟨some (5, 3600), some 1, "A", "Sem conta", "Livre"⟩ : Row) ∈
      dateFilter 5 6 [⟨some (5, 3600), some 1, "A", "Sem conta", "Livre"⟩] ∧
    (⟨none, some 1, "A", "Sem conta", "Livre"⟩ : Row) ∉
      dateFilter 5 6 [⟨none, some 1, "A", "Sem conta", "Livre"⟩] :=
  ⟨(date_filter_inclusive 5 6 _ _).1.mpr
     ⟨List.mem_singleton.mpr rfl, 5, 3600, rfl, by decide, by decide⟩,
   (date_filter_inclusive 5 6 _ _).2 rfl⟩

/-- C5: if the filters eliminate every row the pipeline halts with the
"no data after filters" warning; aggregation is reached only with the
filtered frame non-empty, and then aggregates exactly that frame. -/
theorem empty_result_halts (sd sa sf : List String) (dr : Option (Int × Int))
    (rows : List Row) :
    (applyFilters sd sa sf dr rows = [] →
      runAfterFilters sd sa sf dr rows =
        .halted "Nenhum dado após aplicar os filtros.") ∧
    (∀ agg, runAfterFilters sd sa sf dr rows = .ok agg →
      applyFilters sd sa sf dr rows ≠ [] ∧
      agg = by_dept (applyFilters sd sa sf dr rows)) := by
  constructor
  · intro h
    simp [runAfterFilters, h]
  · intro agg h
    by_cases he : applyFilters sd sa sf dr rows = []
    · simp [runAfterFilters, he] at h
    · refine ⟨he, ?_⟩
      simp [runAfterFilters, he] at h
      exact h.symm

set_option maxRecDepth 4000 in
/-- C5 witness: a selection matching nothing halts the pipeline; a
passing row reaches aggregation. -/
theorem empty_result_halts_witness :
    runAfterFilters ["Z"] [] [] none
        [⟨none, some 1, "A", "Sem conta", "Livre"⟩] =
      .halted "Nenhum dado após aplicar os filtros." ∧
    applyFilters [] [] [] none [⟨none, some 1, "A", "Sem conta", "Livre"⟩] ≠ [] :=
  ⟨(empty_result_halts ["Z"] [] [] none _).1 (by decide),
   ((empty_result_halts [] [] [] none
       [⟨none, some 1, "A", "Sem conta", "Livre"⟩]).2
     (by_dept (applyFilters [] [] [] none
       [⟨none, some 1, "A", "Sem conta", "Livre"⟩])) rfl).1⟩

/-- C6: fund-type canonicalization maps the lower-cased trimmed value
through the fixed token table; unmatched tokens pass through as their
trimmed text; an absent column gives the literal `"Não informado"`; and
`"Livre"` and `"Vinculado"` canonicalize to themselves. -/
theorem fundtype_canonical (cell : Option String) (k v : String) :
    ((k, v) ∈ fundTable → pyLower (pyStrip (pyStrOfCell cell)) = k →
      canonFund cell = v) ∧
    (fundTable.lookup (pyLower (pyStrip (pyStrOfCell cell))) = none →
      canonFund cell = pyStrip (pyStrOfCell cell)) ∧
    fundtypeOf false cell = "Não informado" ∧
    canonFund (some "Livre") = "Livre" ∧
    canonFund (some "Vinculado") = "Vinculado" := by
  refine ⟨?_, ?_, rfl, by decide, by decide⟩
  · intro hmem hk
    simp only [canonFund]
    rw [hk]
    fin_cases hmem <;> rfl
  · intro h
    simp only [canonFund]
    rw [h]

/-- C6 witness: a token of the table after normalization, and a token
outside it. -/
theorem fundtype_canonical_witness :
    canonFund (some " LIVRE ") = "Livre" ∧
    canonFund (some "outro tipo") = pyStrip (pyStrOfCell (some "outro tipo")) :=
  ⟨(fundtype_canonical (some " LIVRE ") "livre" "Livre").1 (by decide) (by decide),
   (fundtype_canonical (some "outro tipo") "" "").2.1 (by decide)⟩

/-- C7: `brl` is total; on a numeric argument it returns `"R$ "` followed
by the value rendered with `.` as thousands separator, `,` as decimal
separator and exactly two decimal places; on a non-numeric argument it
returns the argument's string form unchanged; and `brl 80 = "R$ 80,00"`. -/
theorem brl_contract (q : ℚ) (s : String) :
    brl (.num q) = "R$ " ++ formatBR_spec q ∧
    brl (.nonNum s) = s ∧
    brl (.num 80) = "R$ 80,00" := by
  refine ⟨brl_num_eq q, rfl, ?_⟩
  rw [brl_num_eq 80]
  have h : roundHalfEven ((80 : ℚ) * 100) = 8000 := by
    rw [show ((80 : ℚ) * 100) = ((8000 : Int) : ℚ) by norm_num]
    exact roundHalfEven_intCast 8000
  simp only [formatBR_spec, h]
  decide

/-- C8: the exporter writes one sheet per table, under the name truncated
to 31 characters, and sets every column's width — determined by the longest
stringified cell via `colWidth` — to a value between 12 and 50. -/
theorem to_excel_bytes_shape (sheets : List (String × XTable)) :
    (to_excel_bytes sheets).length = sheets.length ∧
    ∀ s ∈ to_excel_bytes sheets, ∃ p ∈ sheets,
      s.sheetName = ⟨p.1.data.take 31⟩ ∧ s.sheetName.length ≤ 31 ∧
      s.table = p.2 ∧ s.widths = p.2.cols.map colWidth ∧
      ∀ w ∈ s.widths, 12 ≤ w ∧ w ≤ 50 := by
  constructor
  · simp [to_excel_bytes]
  · intro s hs
    rcases List.mem_map.mp hs with ⟨p, hp, rfl⟩
    refine ⟨p, hp, rfl, ?_, rfl, rfl, ?_⟩
    · show (p.1.data.take 31).length ≤ 31
      exact List.length_take_le _ _
    · intro w hw
      rcases List.mem_map.mp hw with ⟨cells, -, rfl⟩
      unfold colWidth
      have h1 := Nat.le_max_left 12 (if cells.isEmpty then 12 else maxCellLen cells)
      omega

/-- C8 witness: a 33-character sheet name is truncated to 31 characters and
the single column's width is clamped into the range. -/
theorem to_excel_bytes_shape_witness :
    ∃ p ∈ [("abcdefghijklmnopqrstuvwxyz0123456", XTable.mk [["um valor"]])],
      (⟨"abcdefghijklmnopqrstuvwxyz01234", XTable.mk [["um valor"]], [14]⟩ :
          XSheet).sheetName = ⟨p.1.data.take 31⟩ ∧
      (⟨"abcdefghijklmnopqrstuvwxyz01234", XTable.mk [["um valor"]], [14]⟩ :
          XSheet).sheetName.length ≤ 31 ∧
      (⟨"abcdefghijklmnopqrstuvwxyz01234", XTable.mk [["um valor"]], [14]⟩ :
          XSheet).table = p.2 ∧
      (⟨"abcdefghijklmnopqrstuvwxyz01234", XTable.mk [["um valor"]], [14]⟩ :
          XSheet).widths = p.2.cols.map colWidth ∧
      ∀ w ∈ (⟨"abcdefghijklmnopqrstuvwxyz01234", XTable.mk [["um valor"]], [14]⟩ :
          XSheet).widths, 12 ≤ w ∧ w ≤ 50 :=
  (to_excel_bytes_shape
      [("abcdefghijklmnopqrstuvwxyz0123456", XTable.mk [["um valor"]])]).2
    _ (by decide)

/-- C9: after cleanup every retained record has a non-empty department and
a parsed signed amount; a row whose raw amount failed parsing can never be
retained; and the invariant is preserved through the filter block. -/
theorem cleanup_no_nulls (cfg : Config) (raw : RawRow) (rows : List Row)
    (sd sa sf : List String) (dr : Option (Int × Int)) :
    (∀ r ∈ cleanup rows, r.dept ≠ "" ∧ r.amount.isSome) ∧
    (raw.amountCell = none → (mkRow cfg raw).amount = none) ∧
    (raw.amountCell = none → ∀ l : List Row, mkRow cfg raw ∉ cleanup l) ∧
    (∀ r ∈ applyFilters sd sa sf dr (cleanup rows),
      r.dept ≠ "" ∧ r.amount.isSome) ∧
    (∀ kv ∈ by_dept (applyFilters sd sa sf dr (cleanup rows)), kv.1 ≠ "") := by
  have hamt : raw.amountCell = none → (mkRow cfg raw).amount = none := by
    intro h
    show sign_by_type cfg.hasType cfg.credit_tokens cfg.debit_tokens
        raw.amountCell raw.typeCell = none
    rw [h, sign_by_type_none]
  have hfil : ∀ r ∈ applyFilters sd sa sf dr (cleanup rows),
      r.dept ≠ "" ∧ r.amount.isSome := fun r hr =>
    ((cleanup_mem rows r).mp (applyFilters_subset sd sa sf dr _ r hr)).2
  refine ⟨?_, hamt, ?_, hfil, ?_⟩
  · intro r hr
    exact ((cleanup_mem rows r).mp hr).2
  · intro h l hmem
    have h3 := ((cleanup_mem l (mkRow cfg raw)).mp hmem).2.2
    rw [hamt h] at h3
    simp at h3
  · intro kv hkv
    rcases groupSum_keys Row.dept _ kv hkv with ⟨r, hr, hk⟩
    rw [← hk]
    exact (hfil r hr).1

/-- C9 witness: a clean row passes cleanup and filtering with the invariant
holding; an unparsable amount yields a NaN signed amount and exclusion. -/
theorem cleanup_no_nulls_witness :
    ((⟨none, some 1, "A", "Sem conta", "Livre"⟩ : Row).dept ≠ "" ∧
      (⟨none, some 1, "A", "Sem conta", "Livre"⟩ : Row).amount.isSome) ∧
    (mkRow ⟨false, false, false, false, [], []⟩
        ⟨none, none, none, none, none, none⟩).amount = none ∧
    mkRow ⟨false, false, false, false, [], []⟩
        ⟨none, none, none, none, none, none⟩ ∉ cleanup [] ∧
    ((⟨none, some 2, "B", "Sem conta", "Livre"⟩ : Row).dept ≠ "" ∧
      (⟨none, some 2, "B", "Sem conta", "Livre"⟩ : Row).amount.isSome) ∧
    ("A", (1 : ℚ)).1 ≠ "" :=
  ⟨(cleanup_no_nulls ⟨false, false, false, false, [], []⟩
      ⟨none, none, none, none, none, none⟩
      [⟨none, some 1, "A", "Sem conta", "Livre"⟩] [] [] [] none).1
    _ (by decide),
   (cleanup_no_nulls ⟨false, false, false, false, [], []⟩
      ⟨none, none, none, none, none, none⟩ [] [] [] [] none).2.1 rfl,
   (cleanup_no_nulls ⟨false, false, false, false, [], []⟩
      ⟨none, none, none, none, none, none⟩ [] [] [] [] none).2.2.1 rfl [],
   (cleanup_no_nulls ⟨false, false, false, false, [], []⟩
      ⟨none, none, none, none, none, none⟩
      [⟨none, some 2, "B", "Sem conta", "Livre"⟩] [] [] [] none).2.2.2.1
    _ (by decide),
   (cleanup_no_nulls ⟨false, false, false, false, [], []⟩
      ⟨none, none, none, none, none, none⟩
      [⟨none, some 1, "A", "Sem conta", "Livre"⟩] [] [] [] none).2.2.2.2
    ("A", 1) (by
      norm_num [by_dept, groupSum, cleanup, applyFilters, applySel]
      refine ⟨⟨none, some 1, "A", "Sem conta", "Livre"⟩,
        ⟨rfl, by decide, by decide⟩, rfl, ?_⟩
      norm_num [List.filter]
      rw [show (decide (("A" : String) = "")) = false from by decide]
      norm_num)⟩

/-- C10: a row whose department cell is missing is stringified to the
literal non-empty `"nan"` and retained by cleanup (given its amount
parses); cleanup removes exactly the rows with an empty trimmed department
or an unparsable amount. -/
theorem nan_dept_retained (cfg : Config) (raw : RawRow) (rows : List Row)
    (r : Row) :
    (raw.deptCell = none → (mkRow cfg raw).dept = "nan") ∧
    (r ∈ cleanup rows ↔ r ∈ rows ∧ r.dept ≠ "" ∧ r.amount.isSome) ∧
    (raw.deptCell = none → (mkRow cfg raw).amount.isSome →
      mkRow cfg raw ∈ rows → mkRow cfg raw ∈ cleanup rows) := by
  have hdept : raw.deptCell = none → (mkRow cfg raw).dept = "nan" := by
    intro h
    show pyStrip (pyStrOfCell raw.deptCell) = "nan"
    rw [h]
    decide
  refine ⟨hdept, cleanup_mem rows r, ?_⟩
  · intro h1 h2 h3
    refine (cleanup_mem rows _).mpr ⟨h3, ?_, h2⟩
    rw [hdept h1]
    decide

/-- C10 witness: a concrete row with a missing department cell and a
parsable amount is kept by cleanup under the department `"nan"`. -/
theorem nan_dept_retained_witness :
    (mkRow ⟨false, false, false, false, [], []⟩
        ⟨none, none, none, none, some 3, none⟩).dept = "nan" ∧
    mkRow ⟨false, false, false, false, [], []⟩
        ⟨none, none, none, none, some 3, none⟩ ∈
      cleanup [mkRow ⟨false, false, false, false, [], []⟩
        ⟨none, none, none, none, some 3, none⟩] :=
  ⟨(nan_dept_retained ⟨false, false, false, false, [], []⟩
      ⟨none, none, none, none, some 3, none⟩ [] ⟨none, none, "", "", ""⟩).1 rfl,
   (nan_dept_retained ⟨false, false, false, false, [], []⟩
      ⟨none, none, none, none, some 3, none⟩
      [mkRow ⟨false, false, false, false, [], []⟩
        ⟨none, none, none, none, some 3, none⟩]
      ⟨none, none, "", "", ""⟩).2.2 rfl (by decide)
     (List.mem_singleton.mpr rfl)⟩

end Saldos
